import Mathlib

/-!
Verification development for the printer/class topology resolver of pycups
(examples/cupstree.py).  The Python functions do_indent, getippqueue,
getqueue and gethost are embedded shallowly: printing becomes an event
trace, the cups connection layer becomes an explicit World value, and an
uncaught Python exception becomes a Crash value threaded through the
trace.  Recursion depth is bounded by an explicit fuel parameter; one unit
of fuel is consumed per nesting level (class expansion or remote follow),
so a run that returns without the fuelOut crash is exactly a terminating
run of the Python program.
-/

namespace CupsTree

/-- Python str.find restricted to a one-character needle: the index of the
first occurrence in the string, or -1 when the character is absent. -/
def pyFindFrom : List Char → Char → Int → Int
  | [], _, _ => -1
  | x :: xs, c, i => if x == c then i else pyFindFrom xs c (i + 1)

/-- Python s.find(c) for a single character c. -/
def pyFind (s : String) (c : Char) : Int := pyFindFrom s.data c 0

/-- Helper for pyRfind: scan left to right remembering the last hit. -/
def pyRfindAux : List Char → Char → Int → Int → Int
  | [], _, _, best => best
  | x :: xs, c, i, best => pyRfindAux xs c (i + 1) (if x == c then i else best)

/-- Python s.rfind(c) for a single character c: the index of the last
occurrence, or -1 when the character is absent. -/
def pyRfind (s : String) (c : Char) : Int := pyRfindAux s.data c 0 (-1)

/-- Python slice s[i:] for a nonnegative start index i. -/
def pySliceFrom (s : String) (i : Int) : String := ⟨s.data.drop i.toNat⟩

/-- Python slice s[:e].  A negative stop counts from the end of the string:
s[:-1] is the string without its final character, and stops below -len give
the empty string. -/
def pySliceTo (s : String) (e : Int) : String :=
  ⟨s.data.take (if e < 0 then s.data.length - (-e).toNat else e.toNat)⟩

/-- Helper for pyStarts: does the first list head the second one. -/
def listStarts : List Char → List Char → Bool
  | [], _ => true
  | _ :: _, [] => false
  | n :: ns, h :: hs => n == h && listStarts ns hs

/-- Python s.startswith(p). -/
def pyStarts (s p : String) : Bool := listStarts p.data s.data

/-- Bit flagging a class in the printer-type attribute value
(CUPS_PRINTER_CLASS re-exported by the cups module from the CUPS API). -/
def CUPS_PRINTER_CLASS : Nat := 1

/-- IPP status code for an unsupported operation (0x0501), re-exported by
the cups module as IPP_OPERATION_NOT_SUPPORTED. -/
def IPP_OPERATION_NOT_SUPPORTED : Int := 1281

/-- The tiny universe of Python values compared at the except handler of
getippqueue: the caught IPPError exception object, and an int constant. -/
inductive PyVal where
  | int (n : Int)
  | exnIPPError (status : Int) (msg : String)
deriving DecidableEq

/-- Python equality as used at line 24 of cupstree.py.  Ints compare by
value.  The IPPError exception class defines no custom equality, so
comparing a caught exception object with an int falls back to object
identity in CPython and is false.  Line 23 reads
"except cups.IPPError as e", which binds the exception object itself to e,
not the numeric status carried inside it. -/
def pyEq : PyVal → PyVal → Bool
  | .int a, .int b => a == b
  | _, _ => false

/-- The printer attributes that cupstree.py consumes from a queue record:
the printer-type bits, the device-uri string and the printer-info string. -/
structure QueueAttrs where
  printerType : Nat
  deviceUri : String
  printerInfo : String
deriving DecidableEq, Repr

/-- A printers table as returned by getPrinters: name to attributes, in
dict iteration order. -/
abbrev Printers := List (String × QueueAttrs)

/-- A classes table as returned by getClasses: class name to ordered member
name list. -/
abbrev Classes := List (String × List String)

/-- Python dict subscript d[k]: the stored value, or a KeyError. -/
def dictGet {α : Type} (d : List (String × α)) (k : String) : Option α :=
  match d with
  | [] => none
  | (k1, v) :: rest => if k1 == k then some v else dictGet rest k

/-- Outcome of cups.setServer(host) followed by Connection(), getPrinters()
and getClasses() against that host.  fail is a RuntimeError raised by
Connection(); ippErr is an IPPError raised by the table fetches over an
already established connection, which therefore still carries a working
getPrinterAttributes; ok carries the two tables and getPrinterAttributes. -/
inductive ConnectResult where
  | fail
  | ippErr (status : Int) (msg : String) (attrs : String → Option QueueAttrs)
  | ok (printers : Printers) (classes : Classes) (attrs : String → Option QueueAttrs)

/-- The external cups world: what connecting to each host yields.  A
getPrinterAttributes answer of none models an IPPError raised by that call
(the queue is unknown on that host). -/
structure World where
  connect : String → ConnectResult

/-- One observable step of the program: a printed node line, a printed URI
or Info line, a connection attempt to a host, or a remote attribute fetch. -/
inductive Ev where
  | node (depth : Nat) (host name : String) (isClass : Bool)
  | uri (depth : Nat) (dev : String)
  | info (depth : Nat) (inf : String)
  | connect (host : String)
  | fetchAttrs (host name : String)
deriving DecidableEq, Repr

/-- An uncaught Python exception terminating the traversal, or exhaustion
of the recursion fuel of the embedding. -/
inductive Crash where
  | fuelOut
  | keyError (key : String)
  | attrsError (name : String)
  | runtimeError
  | ippUncaught (status : Int)
deriving DecidableEq, Repr

/-- A run result: the events emitted before returning or crashing, and the
crash if one escaped. -/
abbrev Res := List Ev × Option Crash

/-- Sequence loop iteration results: keep events up to and including the
first crashing iteration and stop there, as a propagating exception would. -/
def seqResults : List Res → Res
  | [] => ([], none)
  | (evs, some c) :: _ => (evs, some c)
  | (evs, none) :: rest =>
    let r := seqResults rest
    (evs ++ r.1, r.2)

/-- Host extraction of getippqueue, lines 10 to 14 of cupstree.py: drop the
six characters of the scheme, look for a colon, else for a slash, and slice
up to that index.  When neither is present both finds give -1 and that -1
is used directly as a Python slice stop, so the final character of the
remainder is cut off. -/
def ippHost (dev : String) : String :=
  let dev1 := pySliceFrom dev 6
  let e0 := pyFind dev1 ':'
  let e := if e0 == -1 then pyFind dev1 '/' else e0
  pySliceTo dev1 e

/-- Queue name extraction of getippqueue, lines 8 to 9 of cupstree.py: the
substring after the last slash of the whole device uri (the whole string
when it has no slash, since rfind then gives -1 and the slice starts at 0). -/
def ippName (dev : String) : String := pySliceFrom dev (pyRfind dev '/' + 1)

/-- The shape of getqueue: name, attributes, host, depth, printers table,
classes table, to a run result. -/
abbrev QueueFun := String → QueueAttrs → String → Nat → Printers → Classes → Res

/-- Body of getippqueue, lines 7 to 33 of cupstree.py, with g standing for
the recursive call into getqueue.  The second Python parameter (queue) is
dead: it is rebound at line 31 before any use, so it is omitted here.  On a
RuntimeError from Connection() the function returns.  On an IPPError the
code compares the caught exception object with the int constant
IPP_OPERATION_NOT_SUPPORTED; by Python semantics that comparison is false,
so the else branch returns (the empty-tables continuation at lines 26 and
27 is kept here, guarded by the same comparison, for fidelity).  Otherwise
the remote attributes for the name taken from the device uri are fetched
(line 31, outside the try block, so a failure there is an uncaught crash)
and getqueue runs against the new host at depth + 1. -/
def ippStep (w : World) (g : QueueFun) (dev : String) (depth : Nat) : Res :=
  let name := ippName dev
  let host := ippHost dev
  let after : Printers → Classes → (String → Option QueueAttrs) → Res :=
    fun printers classes attrs =>
      match attrs name with
      | none => ([Ev.connect host, Ev.fetchAttrs host name], some (Crash.attrsError name))
      | some queue =>
        let r := g name queue host (depth + 1) printers classes
        (Ev.connect host :: Ev.fetchAttrs host name :: r.1, r.2)
  match w.connect host with
  | .fail => ([Ev.connect host], none)
  | .ippErr status msg attrs =>
    if pyEq (.exnIPPError status msg) (.int IPP_OPERATION_NOT_SUPPORTED)
    then after [] [] attrs
    else ([Ev.connect host], none)
  | .ok printers classes attrs => after printers classes attrs

/-- Body of getqueue, lines 35 to 59 of cupstree.py, with g standing for
the recursive calls at the next nesting level.  A class prints its node
line and either follows an ipp device uri, or expands its member list from
the classes table, looking each member up in the printers table only (a
missing key is an uncaught KeyError).  A simple printer prints its node,
URI and Info lines and follows an ipp device uri if it has one.  The bare
print at line 59 is a no-op under Python 3 and emits nothing. -/
def getqueueStep (w : World) (g : QueueFun) : QueueFun :=
  fun name queue host depth printers classes =>
    if queue.printerType &&& CUPS_PRINTER_CLASS != 0 then
      let head := Ev.node depth host name true
      let dev := queue.deviceUri
      if pyStarts dev "ipp:" then
        let r := ippStep w g dev depth
        (head :: r.1, r.2)
      else
        match dictGet classes name with
        | none => ([head], some (Crash.keyError name))
        | some members =>
          let rs := members.map (fun m =>
            match dictGet printers m with
            | none => (([] : List Ev), some (Crash.keyError m))
            | some a => g m a host (depth + 1) printers classes)
          let r := seqResults rs
          (head :: r.1, r.2)
    else
      let dev := queue.deviceUri
      let inf := queue.printerInfo
      let head := [Ev.node depth host name false, Ev.uri depth dev, Ev.info depth inf]
      if pyStarts dev "ipp:" then
        let r := ippStep w g dev depth
        (head ++ r.1, r.2)
      else
        (head, none)

/-- Fuel-indexed closure of the mutual recursion of getqueue and
getippqueue: fuel bounds the nesting depth, one unit per level. -/
def getqueueFuel (w : World) : Nat → QueueFun
  | 0 => fun _ _ _ _ _ _ => ([], some Crash.fuelOut)
  | f + 1 => getqueueStep w (getqueueFuel w f)

/-- getqueue of cupstree.py, run with the given recursion fuel. -/
def getqueue (w : World) (fuel : Nat) : QueueFun := getqueueFuel w fuel

/-- getippqueue of cupstree.py, run with the given recursion fuel for the
getqueue call it makes against the remote host. -/
def getippqueue (w : World) (fuel : Nat) (dev : String) (depth : Nat) : Res :=
  ippStep w (getqueueFuel w fuel) dev depth

/-- The server gethost connects to: the explicit argument when one is
given, the default local server (labelled localhost at line 65) otherwise. -/
def hostOf (hostArg : Option String) : String :=
  match hostArg with
  | some h => h
  | none => "localhost"

/-- gethost, lines 61 to 71 of cupstree.py.  The starting connection and
table fetches sit outside any try block, so their failures are uncaught
and fatal.  On success every top-level entry of the printers table is
resolved in iteration order at the given depth (0 at the program entry
point). -/
def gethost (w : World) (fuel : Nat) (hostArg : Option String) (depth : Nat) : Res :=
  let host := hostOf hostArg
  match w.connect host with
  | .fail => ([Ev.connect host], some Crash.runtimeError)
  | .ippErr status _ _ => ([Ev.connect host], some (Crash.ippUncaught status))
  | .ok printers classes _ =>
    let rs := printers.map (fun nq => getqueueFuel w fuel nq.1 nq.2 host depth printers classes)
    let r := seqResults rs
    (Ev.connect host :: r.1, r.2)

/-- do_indent of cupstree.py: two spaces repeated per indent level. -/
def do_indent : Nat → String
  | 0 => ""
  | n + 1 => "  " ++ do_indent n

/-- The text lines printed for one event, following the format strings at
lines 38, 50, 53 and 54 of cupstree.py; connection bookkeeping events print
nothing. -/
def render : Ev → List String
  | .node d host name isCl =>
    [do_indent d ++ "* Name:\t" ++ name ++ "[@" ++ host ++ "]"
      ++ (if isCl then " (class)" else "")]
  | .uri d dev => [do_indent d ++ "URI:\t" ++ dev]
  | .info d inf => [do_indent d ++ "Info:\t" ++ inf]
  | .connect _ => []
  | .fetchAttrs _ _ => []

/-- The depth an event prints at, when it prints at all. -/
def evDepth : Ev → Option Nat
  | .node d _ _ _ => some d
  | .uri d _ => some d
  | .info d _ => some d
  | .connect _ => none
  | .fetchAttrs _ _ => none

/-- Projection of a trace to its printed queue nodes, as tuples of depth,
host, name and class flag. -/
def nodesOf (evs : List Ev) : List (Nat × String × String × Bool) :=
  evs.filterMap (fun ev => match ev with
    | .node d h n c => some (d, h, n, c)
    | _ => none)

/-- Modelled from the spec: the topology tree that one resolve call visits
(section 4.2 of the spec), one node per visited queue carrying the depth,
owning host, name and class flag, with the children in resolution order. -/
inductive QTree where
  | mk (depth : Nat) (host name : String) (isClass : Bool) (children : List QTree)
deriving Repr

mutual

/-- Pre-order linearisation of a topology tree: the node itself, then the
linearisations of its children in order. -/
def preOrder : QTree → List (Nat × String × String × Bool)
  | .mk d h n c cs => (d, h, n, c) :: preOrderF cs

/-- Pre-order linearisation of a forest, in order. -/
def preOrderF : List QTree → List (Nat × String × String × Bool)
  | [] => []
  | t :: ts => preOrder t ++ preOrderF ts

end

/-- Collect a list of optional trees; none as soon as one is missing. -/
def seqTrees : List (Option QTree) → Option (List QTree)
  | [] => some []
  | none :: _ => none
  | some t :: rest =>
    match seqTrees rest with
    | none => none
    | some ts => some (t :: ts)

/-- The shape of the tree builder mirroring getqueue. -/
abbrev TreeFun := String → QueueAttrs → String → Nat → Printers → Classes → Option QTree

/-- Modelled from the spec: children contributed by a remote follow (spec
section 4.2 steps 2a and 3b).  Mirrors ippStep branch for branch: a failed
connection or an IPPError reply contributes no children; a successful
connection contributes the one subtree resolved on the remote host; none
stands for a crashed or fuel-starved branch. -/
def ippTreeStep (w : World) (g : TreeFun) (dev : String) (depth : Nat) :
    Option (List QTree) :=
  let name := ippName dev
  let host := ippHost dev
  let after : Printers → Classes → (String → Option QueueAttrs) → Option (List QTree) :=
    fun printers classes attrs =>
      match attrs name with
      | none => none
      | some queue =>
        match g name queue host (depth + 1) printers classes with
        | none => none
        | some t => some [t]
  match w.connect host with
  | .fail => some []
  | .ippErr status msg attrs =>
    if pyEq (.exnIPPError status msg) (.int IPP_OPERATION_NOT_SUPPORTED)
    then after [] [] attrs
    else some []
  | .ok printers classes attrs => after printers classes attrs

/-- Modelled from the spec: one level of the topology tree of a resolve
call, mirroring getqueueStep branch for branch. -/
def treeStep (w : World) (g : TreeFun) : TreeFun :=
  fun name queue host depth printers classes =>
    if queue.printerType &&& CUPS_PRINTER_CLASS != 0 then
      let dev := queue.deviceUri
      if pyStarts dev "ipp:" then
        match ippTreeStep w g dev depth with
        | none => none
        | some cs => some (.mk depth host name true cs)
      else
        match dictGet classes name with
        | none => none
        | some members =>
          match seqTrees (members.map (fun m =>
            match dictGet printers m with
            | none => none
            | some a => g m a host (depth + 1) printers classes)) with
          | none => none
          | some cs => some (.mk depth host name true cs)
    else
      let dev := queue.deviceUri
      if pyStarts dev "ipp:" then
        match ippTreeStep w g dev depth with
        | none => none
        | some cs => some (.mk depth host name false cs)
      else
        some (.mk depth host name false [])

/-- Fuel-indexed topology tree of a getqueue call: some tree exactly for
runs that neither crash nor exhaust the fuel. -/
def buildTree (w : World) : Nat → TreeFun
  | 0 => fun _ _ _ _ _ _ => none
  | f + 1 => treeStep w (buildTree w f)

/-- Fuel-indexed topology forest of a gethost call, one tree per top-level
entry of the printers table, in table order. -/
def buildHost (w : World) (fuel : Nat) (hostArg : Option String) (depth : Nat) :
    Option (List QTree) :=
  let host := hostOf hostArg
  match w.connect host with
  | .fail => none
  | .ippErr _ _ _ => none
  | .ok printers classes _ =>
    seqTrees (printers.map (fun nq =>
      buildTree w fuel nq.1 nq.2 host depth printers classes))

mutual

/-- Every node of the tree stores the depth of its nesting level: the root
stores d and the children recursively store d + 1. -/
def depthsFromB : Nat → QTree → Bool
  | d, .mk d0 _ _ _ cs => d0 == d && depthsFromFB (d + 1) cs

/-- Forest version of depthsFromB: every root of the forest at d. -/
def depthsFromFB : Nat → List QTree → Bool
  | _, [] => true
  | d, t :: ts => depthsFromB d t && depthsFromFB d ts

end

/-- A world where every connection attempt raises RuntimeError. -/
def wFail : World := ⟨fun _ => ConnectResult.fail⟩

/-- A world where every host answers the table fetches with an IPPError
carrying the operation-not-supported status. -/
def wOpNotSup : World :=
  ⟨fun _ => ConnectResult.ippErr IPP_OPERATION_NOT_SUPPORTED "not supported" (fun _ => none)⟩

/-- A simple local printer used in concrete scenarios. -/
def aP1 : QueueAttrs := ⟨0, "file:///dev/null", "p one"⟩

/-- A second simple local printer. -/
def aP2 : QueueAttrs := ⟨0, "file:///dev/null", "p two"⟩

/-- A class with a local device uri. -/
def aCl : QueueAttrs := ⟨1, "///dev/null", "a class"⟩

/-- Printers table of the one-host class scenario. -/
def pCls : Printers := [("P1", aP1), ("C1", aCl), ("P2", aP2)]

/-- Classes table of the one-host class scenario. -/
def cCls : Classes := [("C1", ["P1", "P2"])]

/-- A world with one host S holding two printers and a class over them. -/
def wClass : World :=
  ⟨fun h => if h == "S" then .ok pCls cCls (fun n2 => dictGet pCls n2) else .fail⟩

/-- The topology forest of wClass, used as witness data. -/
def forestCls : List QTree :=
  [QTree.mk 0 "S" "P1" false [],
   QTree.mk 0 "S" "C1" true
     [QTree.mk 1 "S" "P1" false [], QTree.mk 1 "S" "P2" false []],
   QTree.mk 0 "S" "P2" false []]

/-- A queue named foo whose device uri ends in the different name bar. -/
def aFoo : QueueAttrs := ⟨0, "ipp://T/printers/bar", "forwarded"⟩

/-- Printers table of host S in the forwarding scenario. -/
def pFooS : Printers := [("foo", aFoo)]

/-- Printers table of host T in the forwarding scenario. -/
def pBarT : Printers := [("bar", ⟨0, "file:///dev/lp0", "bar on T"⟩)]

/-- A world where S holds foo, forwarding over ipp to bar on T. -/
def wC3 : World :=
  ⟨fun h =>
    if h == "S" then .ok pFooS [] (fun n2 => dictGet pFooS n2)
    else if h == "T" then .ok pBarT [] (fun n2 => dictGet pBarT n2)
    else .fail⟩

/-- A class whose single member M appears only in the classes table. -/
def aC4 : QueueAttrs := ⟨1, "///dev/null", "a class"⟩

/-- Printers table holding only the class entry. -/
def pC4 : Printers := [("C1", aC4)]

/-- Classes table listing member M, which also has its own class entry. -/
def cC4 : Classes := [("C1", ["M"]), ("M", [])]

/-- A world realising the class-table-only member scenario. -/
def wC4 : World :=
  ⟨fun h => if h == "S" then .ok pC4 cC4 (fun n2 => dictGet pC4 n2) else .fail⟩

/-- A simple printer forwarding over ipp to host T. -/
def aIppP3 : QueueAttrs := ⟨0, "ipp://T:631/printers/P3", "p three"⟩

/-- A class forwarding over ipp to host T. -/
def aIppCl : QueueAttrs := ⟨1, "ipp://T:631/classes/K1", "k one"⟩

/-- A simple printer on a usb device uri. -/
def aUsb : QueueAttrs := ⟨0, "usb://EPSON/Stylus%20D78", "EPSON"⟩

@[simp] theorem nodesOf_nil : nodesOf [] = [] := rfl

@[simp] theorem nodesOf_cons_node (d : Nat) (h n : String) (c : Bool) (l : List Ev) :
    nodesOf (Ev.node d h n c :: l) = (d, h, n, c) :: nodesOf l := rfl

@[simp] theorem nodesOf_cons_uri (d : Nat) (u : String) (l : List Ev) :
    nodesOf (Ev.uri d u :: l) = nodesOf l := rfl

@[simp] theorem nodesOf_cons_info (d : Nat) (i : String) (l : List Ev) :
    nodesOf (Ev.info d i :: l) = nodesOf l := rfl

@[simp] theorem nodesOf_cons_connect (h : String) (l : List Ev) :
    nodesOf (Ev.connect h :: l) = nodesOf l := rfl

@[simp] theorem nodesOf_cons_fetch (h n : String) (l : List Ev) :
    nodesOf (Ev.fetchAttrs h n :: l) = nodesOf l := rfl

theorem nodesOf_append (a b : List Ev) : nodesOf (a ++ b) = nodesOf a ++ nodesOf b := by
  simp [nodesOf, List.filterMap_append]

@[simp] theorem seqResults_nil : seqResults [] = ([], none) := rfl

@[simp] theorem seqResults_cons_some (evs : List Ev) (c : Crash) (rs : List Res) :
    seqResults ((evs, some c) :: rs) = (evs, some c) := rfl

@[simp] theorem seqResults_cons_none (evs : List Ev) (rs : List Res) :
    seqResults ((evs, none) :: rs) = (evs ++ (seqResults rs).1, (seqResults rs).2) := rfl

@[simp] theorem seqTrees_nil : seqTrees [] = some [] := rfl

@[simp] theorem seqTrees_cons_none (l : List (Option QTree)) :
    seqTrees (none :: l) = none := rfl

theorem seqTrees_cons_some (t : QTree) (l : List (Option QTree)) :
    seqTrees (some t :: l) =
      match seqTrees l with
      | none => none
      | some ts => some (t :: ts) := rfl

/-- Loop refinement: when every iteration whose tree exists runs crash-free
and emits exactly the pre-order of its tree, the whole loop does the same
for the collected forest. -/
theorem seq_refine {α : Type} (fr : α → Res) (ft : α → Option QTree)
    (hpt : ∀ m t, ft m = some t → (fr m).2 = none ∧ nodesOf (fr m).1 = preOrder t) :
    ∀ (ms : List α) (ts : List QTree), seqTrees (ms.map ft) = some ts →
      (seqResults (ms.map fr)).2 = none ∧
      nodesOf (seqResults (ms.map fr)).1 = preOrderF ts := by
  intro ms
  induction ms with
  | nil =>
    intro ts hts
    simp only [List.map_nil, seqTrees_nil, Option.some_inj] at hts
    subst hts
    simp [preOrderF]
  | cons m rest ih =>
    intro ts hts
    simp only [List.map_cons] at hts ⊢
    cases hfm : ft m with
    | none => rw [hfm] at hts; simp at hts
    | some t =>
      rw [hfm, seqTrees_cons_some] at hts
      cases hrest : seqTrees (List.map ft rest) with
      | none => rw [hrest] at hts; simp at hts
      | some ts2 =>
        rw [hrest] at hts
        simp only [Option.some_inj] at hts
        subst hts
        obtain ⟨h1, h2⟩ := hpt m t hfm
        obtain ⟨h3, h4⟩ := ih ts2 hrest
        rcases hfr : fr m with ⟨evs, cr⟩
        rw [hfr] at h1 h2
        simp only at h1 h2
        subst h1
        rw [seqResults_cons_none]
        refine ⟨h3, ?_⟩
        rw [nodesOf_append, h2, h4]
        simp [preOrderF]

@[simp] theorem pyEq_exn_int (status : Int) (msg : String) (n : Int) :
    pyEq (.exnIPPError status msg) (.int n) = false := rfl

theorem bool_ne_true {b : Bool} (h : ¬ b = true) : b = false := by
  cases b with
  | false => rfl
  | true => exact absurd rfl h

theorem ippStep_fail (w : World) (g : QueueFun) (dev : String) (depth : Nat)
    (hc : w.connect (ippHost dev) = .fail) :
    ippStep w g dev depth = ([Ev.connect (ippHost dev)], none) := by
  simp [ippStep, hc]

theorem ippStep_ippErr (w : World) (g : QueueFun) (dev : String) (depth : Nat)
    (status : Int) (msg : String) (attrs : String → Option QueueAttrs)
    (hc : w.connect (ippHost dev) = .ippErr status msg attrs) :
    ippStep w g dev depth = ([Ev.connect (ippHost dev)], none) := by
  simp [ippStep, hc]

theorem ippStep_ok_attrs_none (w : World) (g : QueueFun) (dev : String) (depth : Nat)
    (printers : Printers) (classes : Classes) (attrs : String → Option QueueAttrs)
    (hc : w.connect (ippHost dev) = .ok printers classes attrs)
    (ha : attrs (ippName dev) = none) :
    ippStep w g dev depth =
      ([Ev.connect (ippHost dev), Ev.fetchAttrs (ippHost dev) (ippName dev)],
        some (Crash.attrsError (ippName dev))) := by
  simp [ippStep, hc, ha]

theorem ippStep_ok_attrs_some (w : World) (g : QueueFun) (dev : String) (depth : Nat)
    (printers : Printers) (classes : Classes) (attrs : String → Option QueueAttrs)
    (q : QueueAttrs)
    (hc : w.connect (ippHost dev) = .ok printers classes attrs)
    (ha : attrs (ippName dev) = some q) :
    ippStep w g dev depth =
      (Ev.connect (ippHost dev) :: Ev.fetchAttrs (ippHost dev) (ippName dev) ::
        (g (ippName dev) q (ippHost dev) (depth + 1) printers classes).1,
       (g (ippName dev) q (ippHost dev) (depth + 1) printers classes).2) := by
  simp [ippStep, hc, ha]

theorem getqueueStep_class_ipp (w : World) (g : QueueFun)
    (n : String) (a : QueueAttrs) (h0 : String) (d : Nat) (P : Printers) (C : Classes)
    (hcl : (a.printerType &&& CUPS_PRINTER_CLASS != 0) = true)
    (hipp : pyStarts a.deviceUri "ipp:" = true) :
    getqueueStep w g n a h0 d P C =
      (Ev.node d h0 n true :: (ippStep w g a.deviceUri d).1,
       (ippStep w g a.deviceUri d).2) := by
  simp [getqueueStep, hcl, hipp]

theorem getqueueStep_class_local_nomem (w : World) (g : QueueFun)
    (n : String) (a : QueueAttrs) (h0 : String) (d : Nat) (P : Printers) (C : Classes)
    (hcl : (a.printerType &&& CUPS_PRINTER_CLASS != 0) = true)
    (hipp : pyStarts a.deviceUri "ipp:" = false)
    (hmem : dictGet C n = none) :
    getqueueStep w g n a h0 d P C =
      ([Ev.node d h0 n true], some (Crash.keyError n)) := by
  simp [getqueueStep, hcl, hipp, hmem]

theorem getqueueStep_class_local_mem (w : World) (g : QueueFun)
    (n : String) (a : QueueAttrs) (h0 : String) (d : Nat) (P : Printers) (C : Classes)
    (members : List String)
    (hcl : (a.printerType &&& CUPS_PRINTER_CLASS != 0) = true)
    (hipp : pyStarts a.deviceUri "ipp:" = false)
    (hmem : dictGet C n = some members) :
    getqueueStep w g n a h0 d P C =
      (Ev.node d h0 n true ::
        (seqResults (members.map (fun m =>
          match dictGet P m with
          | none => (([] : List Ev), some (Crash.keyError m))
          | some a2 => g m a2 h0 (d + 1) P C))).1,
       (seqResults (members.map (fun m =>
          match dictGet P m with
          | none => (([] : List Ev), some (Crash.keyError m))
          | some a2 => g m a2 h0 (d + 1) P C))).2) := by
  simp [getqueueStep, hcl, hipp, hmem]

theorem getqueueStep_printer_ipp (w : World) (g : QueueFun)
    (n : String) (a : QueueAttrs) (h0 : String) (d : Nat) (P : Printers) (C : Classes)
    (hcl : (a.printerType &&& CUPS_PRINTER_CLASS != 0) = false)
    (hipp : pyStarts a.deviceUri "ipp:" = true) :
    getqueueStep w g n a h0 d P C =
      ([Ev.node d h0 n false, Ev.uri d a.deviceUri, Ev.info d a.printerInfo]
        ++ (ippStep w g a.deviceUri d).1,
       (ippStep w g a.deviceUri d).2) := by
  simp [getqueueStep, hcl, hipp]

theorem getqueueStep_printer_local (w : World) (g : QueueFun)
    (n : String) (a : QueueAttrs) (h0 : String) (d : Nat) (P : Printers) (C : Classes)
    (hcl : (a.printerType &&& CUPS_PRINTER_CLASS != 0) = false)
    (hipp : pyStarts a.deviceUri "ipp:" = false) :
    getqueueStep w g n a h0 d P C =
      ([Ev.node d h0 n false, Ev.uri d a.deviceUri, Ev.info d a.printerInfo], none) := by
  simp [getqueueStep, hcl, hipp]

theorem ippTreeStep_fail (w : World) (gt : TreeFun) (dev : String) (depth : Nat)
    (hc : w.connect (ippHost dev) = .fail) :
    ippTreeStep w gt dev depth = some [] := by
  simp [ippTreeStep, hc]

theorem ippTreeStep_ippErr (w : World) (gt : TreeFun) (dev : String) (depth : Nat)
    (status : Int) (msg : String) (attrs : String → Option QueueAttrs)
    (hc : w.connect (ippHost dev) = .ippErr status msg attrs) :
    ippTreeStep w gt dev depth = some [] := by
  simp [ippTreeStep, hc]

theorem ippTreeStep_ok_attrs_none (w : World) (gt : TreeFun) (dev : String) (depth : Nat)
    (printers : Printers) (classes : Classes) (attrs : String → Option QueueAttrs)
    (hc : w.connect (ippHost dev) = .ok printers classes attrs)
    (ha : attrs (ippName dev) = none) :
    ippTreeStep w gt dev depth = none := by
  simp [ippTreeStep, hc, ha]

theorem ippTreeStep_ok_attrs_some (w : World) (gt : TreeFun) (dev : String) (depth : Nat)
    (printers : Printers) (classes : Classes) (attrs : String → Option QueueAttrs)
    (q : QueueAttrs)
    (hc : w.connect (ippHost dev) = .ok printers classes attrs)
    (ha : attrs (ippName dev) = some q) :
    ippTreeStep w gt dev depth =
      (match gt (ippName dev) q (ippHost dev) (depth + 1) printers classes with
        | none => none
        | some t => some [t]) := by
  simp [ippTreeStep, hc, ha]

theorem treeStep_class_ipp (w : World) (gt : TreeFun)
    (n : String) (a : QueueAttrs) (h0 : String) (d : Nat) (P : Printers) (C : Classes)
    (hcl : (a.printerType &&& CUPS_PRINTER_CLASS != 0) = true)
    (hipp : pyStarts a.deviceUri "ipp:" = true) :
    treeStep w gt n a h0 d P C =
      (match ippTreeStep w gt a.deviceUri d with
        | none => none
        | some cs => some (QTree.mk d h0 n true cs)) := by
  simp [treeStep, hcl, hipp]

theorem treeStep_class_local_nomem (w : World) (gt : TreeFun)
    (n : String) (a : QueueAttrs) (h0 : String) (d : Nat) (P : Printers) (C : Classes)
    (hcl : (a.printerType &&& CUPS_PRINTER_CLASS != 0) = true)
    (hipp : pyStarts a.deviceUri "ipp:" = false)
    (hmem : dictGet C n = none) :
    treeStep w gt n a h0 d P C = none := by
  simp [treeStep, hcl, hipp, hmem]

theorem treeStep_class_local_mem (w : World) (gt : TreeFun)
    (n : String) (a : QueueAttrs) (h0 : String) (d : Nat) (P : Printers) (C : Classes)
    (members : List String)
    (hcl : (a.printerType &&& CUPS_PRINTER_CLASS != 0) = true)
    (hipp : pyStarts a.deviceUri "ipp:" = false)
    (hmem : dictGet C n = some members) :
    treeStep w gt n a h0 d P C =
      (match seqTrees (members.map (fun m =>
          match dictGet P m with
          | none => none
          | some a2 => gt m a2 h0 (d + 1) P C)) with
        | none => none
        | some cs => some (QTree.mk d h0 n true cs)) := by
  simp [treeStep, hcl, hipp, hmem]

theorem treeStep_printer_ipp (w : World) (gt : TreeFun)
    (n : String) (a : QueueAttrs) (h0 : String) (d : Nat) (P : Printers) (C : Classes)
    (hcl : (a.printerType &&& CUPS_PRINTER_CLASS != 0) = false)
    (hipp : pyStarts a.deviceUri "ipp:" = true) :
    treeStep w gt n a h0 d P C =
      (match ippTreeStep w gt a.deviceUri d with
        | none => none
        | some cs => some (QTree.mk d h0 n false cs)) := by
  simp [treeStep, hcl, hipp]

theorem treeStep_printer_local (w : World) (gt : TreeFun)
    (n : String) (a : QueueAttrs) (h0 : String) (d : Nat) (P : Printers) (C : Classes)
    (hcl : (a.printerType &&& CUPS_PRINTER_CLASS != 0) = false)
    (hipp : pyStarts a.deviceUri "ipp:" = false) :
    treeStep w gt n a h0 d P C = some (QTree.mk d h0 n false []) := by
  simp [treeStep, hcl, hipp]

theorem gethost_fail (w : World) (fuel : Nat) (hostArg : Option String) (depth : Nat)
    (hc : w.connect (hostOf hostArg) = .fail) :
    gethost w fuel hostArg depth =
      ([Ev.connect (hostOf hostArg)], some Crash.runtimeError) := by
  simp [gethost, hc]

theorem gethost_ippErr (w : World) (fuel : Nat) (hostArg : Option String) (depth : Nat)
    (status : Int) (msg : String) (attrs : String → Option QueueAttrs)
    (hc : w.connect (hostOf hostArg) = .ippErr status msg attrs) :
    gethost w fuel hostArg depth =
      ([Ev.connect (hostOf hostArg)], some (Crash.ippUncaught status)) := by
  simp [gethost, hc]

theorem gethost_ok (w : World) (fuel : Nat) (hostArg : Option String) (depth : Nat)
    (printers : Printers) (classes : Classes) (attrs : String → Option QueueAttrs)
    (hc : w.connect (hostOf hostArg) = .ok printers classes attrs) :
    gethost w fuel hostArg depth =
      (Ev.connect (hostOf hostArg) ::
        (seqResults (printers.map (fun nq =>
          getqueueFuel w fuel nq.1 nq.2 (hostOf hostArg) depth printers classes))).1,
       (seqResults (printers.map (fun nq =>
          getqueueFuel w fuel nq.1 nq.2 (hostOf hostArg) depth printers classes))).2) := by
  simp [gethost, hc]

theorem buildHost_fail (w : World) (fuel : Nat) (hostArg : Option String) (depth : Nat)
    (hc : w.connect (hostOf hostArg) = .fail) :
    buildHost w fuel hostArg depth = none := by
  simp [buildHost, hc]

theorem buildHost_ippErr (w : World) (fuel : Nat) (hostArg : Option String) (depth : Nat)
    (status : Int) (msg : String) (attrs : String → Option QueueAttrs)
    (hc : w.connect (hostOf hostArg) = .ippErr status msg attrs) :
    buildHost w fuel hostArg depth = none := by
  simp [buildHost, hc]

theorem buildHost_ok (w : World) (fuel : Nat) (hostArg : Option String) (depth : Nat)
    (printers : Printers) (classes : Classes) (attrs : String → Option QueueAttrs)
    (hc : w.connect (hostOf hostArg) = .ok printers classes attrs) :
    buildHost w fuel hostArg depth =
      seqTrees (printers.map (fun nq =>
        buildTree w fuel nq.1 nq.2 (hostOf hostArg) depth printers classes)) := by
  simp [buildHost, hc]

/-- Remote-follow refinement: whenever the remote branch has a built child
forest, the corresponding getippqueue body run is crash-free and its
printed nodes are exactly the pre-order of that forest. -/
theorem ipp_refine (w : World) (g : QueueFun) (gt : TreeFun)
    (hpt : ∀ n a h0 d P C t, gt n a h0 d P C = some t →
      (g n a h0 d P C).2 = none ∧ nodesOf (g n a h0 d P C).1 = preOrder t) :
    ∀ dev depth cs, ippTreeStep w gt dev depth = some cs →
      (ippStep w g dev depth).2 = none ∧
      nodesOf (ippStep w g dev depth).1 = preOrderF cs := by
  intro dev depth cs hcs
  cases hc : w.connect (ippHost dev) with
  | fail =>
    rw [ippTreeStep_fail w gt dev depth hc, Option.some_inj] at hcs
    subst hcs
    rw [ippStep_fail w g dev depth hc]
    simp [preOrderF]
  | ippErr status msg attrs =>
    rw [ippTreeStep_ippErr w gt dev depth status msg attrs hc, Option.some_inj] at hcs
    subst hcs
    rw [ippStep_ippErr w g dev depth status msg attrs hc]
    simp [preOrderF]
  | ok printers classes attrs =>
    cases hat : attrs (ippName dev) with
    | none =>
      rw [ippTreeStep_ok_attrs_none w gt dev depth printers classes attrs hc hat] at hcs
      simp at hcs
    | some q =>
      rw [ippTreeStep_ok_attrs_some w gt dev depth printers classes attrs q hc hat] at hcs
      cases hgt : gt (ippName dev) q (ippHost dev) (depth + 1) printers classes with
      | none => rw [hgt] at hcs; simp at hcs
      | some t =>
        rw [hgt] at hcs
        dsimp only at hcs
        simp only [Option.some_inj] at hcs
        subst hcs
        rw [ippStep_ok_attrs_some w g dev depth printers classes attrs q hc hat]
        obtain ⟨h1, h2⟩ := hpt _ _ _ _ _ _ _ hgt
        refine ⟨h1, ?_⟩
        simp [h2, preOrderF]

/-- One-level refinement of getqueue by the topology tree, parametric in
the next nesting level. -/
theorem step_refine (w : World) (g : QueueFun) (gt : TreeFun)
    (hpt : ∀ n a h0 d P C t, gt n a h0 d P C = some t →
      (g n a h0 d P C).2 = none ∧ nodesOf (g n a h0 d P C).1 = preOrder t) :
    ∀ n a h0 d P C t, treeStep w gt n a h0 d P C = some t →
      (getqueueStep w g n a h0 d P C).2 = none ∧
      nodesOf (getqueueStep w g n a h0 d P C).1 = preOrder t := by
  intro n a h0 d P C t ht
  by_cases hcl : (a.printerType &&& CUPS_PRINTER_CLASS != 0) = true
  · by_cases hipp : pyStarts a.deviceUri "ipp:" = true
    · rw [treeStep_class_ipp w gt n a h0 d P C hcl hipp] at ht
      rw [getqueueStep_class_ipp w g n a h0 d P C hcl hipp]
      cases hcs : ippTreeStep w gt a.deviceUri d with
      | none => rw [hcs] at ht; simp at ht
      | some cs =>
        rw [hcs] at ht
        dsimp only at ht
        simp only [Option.some_inj] at ht
        subst ht
        obtain ⟨h1, h2⟩ := ipp_refine w g gt hpt _ _ _ hcs
        refine ⟨h1, ?_⟩
        simp [h2, preOrder]
    · have hipp2 := bool_ne_true hipp
      cases hmem : dictGet C n with
      | none =>
        rw [treeStep_class_local_nomem w gt n a h0 d P C hcl hipp2 hmem] at ht
        simp at ht
      | some members =>
        rw [treeStep_class_local_mem w gt n a h0 d P C members hcl hipp2 hmem] at ht
        rw [getqueueStep_class_local_mem w g n a h0 d P C members hcl hipp2 hmem]
        cases hseq : seqTrees (members.map (fun m =>
          match dictGet P m with
          | none => none
          | some a2 => gt m a2 h0 (d + 1) P C)) with
        | none => rw [hseq] at ht; simp at ht
        | some cs =>
          rw [hseq] at ht
          dsimp only at ht
          simp only [Option.some_inj] at ht
          subst ht
          have hloop := seq_refine
            (fun m =>
              match dictGet P m with
              | none => (([] : List Ev), some (Crash.keyError m))
              | some a2 => g m a2 h0 (d + 1) P C)
            (fun m =>
              match dictGet P m with
              | none => none
              | some a2 => gt m a2 h0 (d + 1) P C)
            (by
              intro m t2 hm
              dsimp only at hm ⊢
              cases hpm : dictGet P m with
              | none => simp [hpm] at hm
              | some a2 =>
                simp only [hpm] at hm ⊢
                exact hpt _ _ _ _ _ _ _ hm)
            members cs hseq
          obtain ⟨h3, h4⟩ := hloop
          refine ⟨h3, ?_⟩
          simp [h4, preOrder]
  · have hcl2 := bool_ne_true hcl
    by_cases hipp : pyStarts a.deviceUri "ipp:" = true
    · rw [treeStep_printer_ipp w gt n a h0 d P C hcl2 hipp] at ht
      rw [getqueueStep_printer_ipp w g n a h0 d P C hcl2 hipp]
      cases hcs : ippTreeStep w gt a.deviceUri d with
      | none => rw [hcs] at ht; simp at ht
      | some cs =>
        rw [hcs] at ht
        dsimp only at ht
        simp only [Option.some_inj] at ht
        subst ht
        obtain ⟨h1, h2⟩ := ipp_refine w g gt hpt _ _ _ hcs
        refine ⟨h1, ?_⟩
        simp [h2, preOrder]
    · have hipp2 := bool_ne_true hipp
      rw [treeStep_printer_local w gt n a h0 d P C hcl2 hipp2, Option.some_inj] at ht
      subst ht
      rw [getqueueStep_printer_local w g n a h0 d P C hcl2 hipp2]
      refine ⟨rfl, ?_⟩
      simp [preOrder, preOrderF]

/-- Main refinement: a getqueue run whose topology tree exists is crash
free and prints its nodes in exactly the pre-order of that tree. -/
theorem refine_main (w : World) :
    ∀ fuel n a h0 d P C t, buildTree w fuel n a h0 d P C = some t →
      (getqueueFuel w fuel n a h0 d P C).2 = none ∧
      nodesOf (getqueueFuel w fuel n a h0 d P C).1 = preOrder t := by
  intro fuel
  induction fuel with
  | zero => intro n a h0 d P C t ht; simp [buildTree] at ht
  | succ f ih =>
    intro n a h0 d P C t ht
    simp only [buildTree] at ht
    simp only [getqueueFuel]
    exact step_refine w (getqueueFuel w f) (buildTree w f) ih n a h0 d P C t ht

/-- Driver refinement: a gethost run whose topology forest exists is crash
free and prints its nodes in exactly the pre-order of that forest, one tree
per printers-table entry, in table order. -/
theorem host_refine (w : World) (fuel : Nat) (hostArg : Option String) (depth : Nat)
    (ts : List QTree) (hts : buildHost w fuel hostArg depth = some ts) :
    (gethost w fuel hostArg depth).2 = none ∧
    nodesOf (gethost w fuel hostArg depth).1 = preOrderF ts := by
  cases hc : w.connect (hostOf hostArg) with
  | fail => rw [buildHost_fail w fuel hostArg depth hc] at hts; simp at hts
  | ippErr status msg attrs =>
    rw [buildHost_ippErr w fuel hostArg depth status msg attrs hc] at hts
    simp at hts
  | ok printers classes attrs =>
    rw [buildHost_ok w fuel hostArg depth printers classes attrs hc] at hts
    rw [gethost_ok w fuel hostArg depth printers classes attrs hc]
    have hloop := seq_refine
      (fun nq : String × QueueAttrs =>
        getqueueFuel w fuel nq.1 nq.2 (hostOf hostArg) depth printers classes)
      (fun nq : String × QueueAttrs =>
        buildTree w fuel nq.1 nq.2 (hostOf hostArg) depth printers classes)
      (by
        intro nq t2 hm
        dsimp only at hm ⊢
        exact refine_main w fuel _ _ _ _ _ _ _ hm)
      printers ts hts
    obtain ⟨h1, h2⟩ := hloop
    exact ⟨h1, by simpa using h2⟩

/-- Loop version of the depth invariant: every collected member tree keeps
correct depths from the member level. -/
theorem seq_depth {α : Type} (ft : α → Option QTree) (d : Nat)
    (hpt : ∀ m t, ft m = some t → depthsFromB d t = true) :
    ∀ (ms : List α) (ts : List QTree), seqTrees (ms.map ft) = some ts →
      depthsFromFB d ts = true := by
  intro ms
  induction ms with
  | nil =>
    intro ts hts
    simp only [List.map_nil, seqTrees_nil, Option.some_inj] at hts
    subst hts
    simp [depthsFromFB]
  | cons m rest ih =>
    intro ts hts
    simp only [List.map_cons] at hts
    cases hfm : ft m with
    | none => rw [hfm] at hts; simp at hts
    | some t =>
      rw [hfm, seqTrees_cons_some] at hts
      cases hrest : seqTrees (List.map ft rest) with
      | none => rw [hrest] at hts; simp at hts
      | some ts2 =>
        rw [hrest] at hts
        dsimp only at hts
        simp only [Option.some_inj] at hts
        subst hts
        simp [depthsFromFB, hpt m t hfm, ih ts2 hrest]

/-- Remote-follow version of the depth invariant: the children contributed
by a remote follow at depth sit at depth + 1. -/
theorem ipp_depth (w : World) (gt : TreeFun)
    (hpt : ∀ n a h0 d P C t, gt n a h0 d P C = some t → depthsFromB d t = true) :
    ∀ dev depth cs, ippTreeStep w gt dev depth = some cs →
      depthsFromFB (depth + 1) cs = true := by
  intro dev depth cs hcs
  cases hc : w.connect (ippHost dev) with
  | fail =>
    rw [ippTreeStep_fail w gt dev depth hc, Option.some_inj] at hcs
    subst hcs
    simp [depthsFromFB]
  | ippErr status msg attrs =>
    rw [ippTreeStep_ippErr w gt dev depth status msg attrs hc, Option.some_inj] at hcs
    subst hcs
    simp [depthsFromFB]
  | ok printers classes attrs =>
    cases hat : attrs (ippName dev) with
    | none =>
      rw [ippTreeStep_ok_attrs_none w gt dev depth printers classes attrs hc hat] at hcs
      simp at hcs
    | some q =>
      rw [ippTreeStep_ok_attrs_some w gt dev depth printers classes attrs q hc hat] at hcs
      cases hgt : gt (ippName dev) q (ippHost dev) (depth + 1) printers classes with
      | none => rw [hgt] at hcs; simp at hcs
      | some t =>
        rw [hgt] at hcs
        dsimp only at hcs
        simp only [Option.some_inj] at hcs
        subst hcs
        simp [depthsFromFB, hpt _ _ _ _ _ _ _ hgt]

/-- One-level depth invariant of the topology tree. -/
theorem step_depth (w : World) (gt : TreeFun)
    (hpt : ∀ n a h0 d P C t, gt n a h0 d P C = some t → depthsFromB d t = true) :
    ∀ n a h0 d P C t, treeStep w gt n a h0 d P C = some t →
      depthsFromB d t = true := by
  intro n a h0 d P C t ht
  by_cases hcl : (a.printerType &&& CUPS_PRINTER_CLASS != 0) = true
  · by_cases hipp : pyStarts a.deviceUri "ipp:" = true
    · rw [treeStep_class_ipp w gt n a h0 d P C hcl hipp] at ht
      cases hcs : ippTreeStep w gt a.deviceUri d with
      | none => rw [hcs] at ht; simp at ht
      | some cs =>
        rw [hcs] at ht
        dsimp only at ht
        simp only [Option.some_inj] at ht
        subst ht
        simp [depthsFromB, ipp_depth w gt hpt _ _ _ hcs]
    · have hipp2 := bool_ne_true hipp
      cases hmem : dictGet C n with
      | none =>
        rw [treeStep_class_local_nomem w gt n a h0 d P C hcl hipp2 hmem] at ht
        simp at ht
      | some members =>
        rw [treeStep_class_local_mem w gt n a h0 d P C members hcl hipp2 hmem] at ht
        cases hseq : seqTrees (members.map (fun m =>
          match dictGet P m with
          | none => none
          | some a2 => gt m a2 h0 (d + 1) P C)) with
        | none => rw [hseq] at ht; simp at ht
        | some cs =>
          rw [hseq] at ht
          dsimp only at ht
          simp only [Option.some_inj] at ht
          subst ht
          have hk := seq_depth
            (fun m =>
              match dictGet P m with
              | none => none
              | some a2 => gt m a2 h0 (d + 1) P C) (d + 1)
            (by
              intro m t2 hm
              dsimp only at hm
              cases hpm : dictGet P m with
              | none => simp [hpm] at hm
              | some a2 =>
                simp only [hpm] at hm
                exact hpt _ _ _ _ _ _ _ hm)
            members cs hseq
          simp [depthsFromB, hk]
  · have hcl2 := bool_ne_true hcl
    by_cases hipp : pyStarts a.deviceUri "ipp:" = true
    · rw [treeStep_printer_ipp w gt n a h0 d P C hcl2 hipp] at ht
      cases hcs : ippTreeStep w gt a.deviceUri d with
      | none => rw [hcs] at ht; simp at ht
      | some cs =>
        rw [hcs] at ht
        dsimp only at ht
        simp only [Option.some_inj] at ht
        subst ht
        simp [depthsFromB, ipp_depth w gt hpt _ _ _ hcs]
    · have hipp2 := bool_ne_true hipp
      rw [treeStep_printer_local w gt n a h0 d P C hcl2 hipp2, Option.some_inj] at ht
      subst ht
      simp [depthsFromB, depthsFromFB]

/-- Main depth invariant: every built topology tree rooted at depth d
stores d at the root and d plus the nesting level below. -/
theorem depth_main (w : World) :
    ∀ fuel n a h0 d P C t, buildTree w fuel n a h0 d P C = some t →
      depthsFromB d t = true := by
  intro fuel
  induction fuel with
  | zero => intro n a h0 d P C t ht; simp [buildTree] at ht
  | succ f ih =>
    intro n a h0 d P C t ht
    simp only [buildTree] at ht
    exact step_depth w (buildTree w f) ih n a h0 d P C t ht

/-- Driver depth invariant: the forest of a gethost run keeps correct
depths from the starting depth. -/
theorem host_depth (w : World) (fuel : Nat) (hostArg : Option String) (depth : Nat)
    (ts : List QTree) (hts : buildHost w fuel hostArg depth = some ts) :
    depthsFromFB depth ts = true := by
  cases hc : w.connect (hostOf hostArg) with
  | fail => rw [buildHost_fail w fuel hostArg depth hc] at hts; simp at hts
  | ippErr status msg attrs =>
    rw [buildHost_ippErr w fuel hostArg depth status msg attrs hc] at hts
    simp at hts
  | ok printers classes attrs =>
    rw [buildHost_ok w fuel hostArg depth printers classes attrs hc] at hts
    exact seq_depth
      (fun nq : String × QueueAttrs =>
        buildTree w fuel nq.1 nq.2 (hostOf hostArg) depth printers classes) depth
      (by
        intro nq t2 hm
        dsimp only at hm
        exact depth_main w fuel _ _ _ _ _ _ _ hm)
      printers ts hts

/-- The indent string is exactly two spaces repeated per level. -/
theorem do_indent_data : ∀ d : Nat, (do_indent d).data = List.replicate (2 * d) ' ' := by
  intro d
  induction d with
  | zero => rfl
  | succ n ih =>
    show (("  " : String) ++ do_indent n).data = List.replicate (2 * (n + 1)) ' '
    have h2 : (("  " : String) ++ do_indent n).data = ' ' :: ' ' :: (do_indent n).data := rfl
    rw [h2, ih]
    have h3 : 2 * (n + 1) = 2 * n + 1 + 1 := by omega
    rw [h3, List.replicate_succ, List.replicate_succ]

/-- The indent for depth d is 2 * d characters long. -/
theorem do_indent_length (d : Nat) : (do_indent d).length = 2 * d := by
  show (do_indent d).data.length = 2 * d
  rw [do_indent_data]
  exact List.length_replicate (2 * d) ' '

/-- A string whose first character differs from the space character does
not start with a space, whatever follows it. -/
theorem pyStarts_space_head (c : Char) (cs : List Char) (x pre : String)
    (hpre : pre.data = c :: cs) (hc : (' ' == c) = false) :
    pyStarts (pre ++ x) " " = false := by
  show listStarts (" " : String).data (pre ++ x).data = false
  have hdata : (pre ++ x).data = c :: (cs ++ x.data) := by
    rw [String.data_append, hpre]
    rfl
  rw [hdata]
  show listStarts [' '] (c :: (cs ++ x.data)) = false
  simp [listStarts, hc]

/-- A loop whose already-run part and current branch both finish without a
crash continues into the remaining branches untouched. -/
theorem seqResults_append_mid : ∀ (rs1 : List Res) (r : Res) (rs2 : List Res),
    (seqResults rs1).2 = none → r.2 = none →
    seqResults (rs1 ++ r :: rs2) =
      ((seqResults rs1).1 ++ r.1 ++ (seqResults rs2).1, (seqResults rs2).2) := by
  intro rs1
  induction rs1 with
  | nil =>
    intro r rs2 _ hr
    rcases r with ⟨evs, cr⟩
    simp only at hr
    subst hr
    simp
  | cons p rest ih =>
    intro r rs2 h1 hr
    rcases p with ⟨evs, cr⟩
    cases cr with
    | some c => simp at h1
    | none =>
      have h1b : (seqResults rest).2 = none := by simpa using h1
      rw [List.cons_append, seqResults_cons_none, seqResults_cons_none,
        ih r rs2 h1b hr]
      simp

/-- The member loop over simple local printers present in the printers
table finishes without a crash and prints exactly one node per member,
in order, at the member depth. -/
theorem loop_simple_local (w : World) (f : Nat) (h0 : String) (d : Nat)
    (P : Printers) (C : Classes) :
    ∀ ms : List String,
      (∀ m ∈ ms, ∃ am, dictGet P m = some am ∧
        (am.printerType &&& CUPS_PRINTER_CLASS != 0) = false ∧
        pyStarts am.deviceUri "ipp:" = false) →
      (seqResults (ms.map (fun m =>
        match dictGet P m with
        | none => (([] : List Ev), some (Crash.keyError m))
        | some a2 => getqueueFuel w (f + 1) m a2 h0 (d + 1) P C))).2 = none ∧
      nodesOf (seqResults (ms.map (fun m =>
        match dictGet P m with
        | none => (([] : List Ev), some (Crash.keyError m))
        | some a2 => getqueueFuel w (f + 1) m a2 h0 (d + 1) P C))).1 =
        ms.map (fun m => (d + 1, h0, m, false)) := by
  intro ms
  induction ms with
  | nil => intro _; simp
  | cons m rest ih =>
    intro hms
    obtain ⟨am, hpm, hclm, hippm⟩ := hms m (List.mem_cons_self m rest)
    have hleaf : getqueueFuel w (f + 1) m am h0 (d + 1) P C =
        ([Ev.node (d + 1) h0 m false, Ev.uri (d + 1) am.deviceUri,
          Ev.info (d + 1) am.printerInfo], none) := by
      have hunf : getqueueFuel w (f + 1) m am h0 (d + 1) P C =
          getqueueStep w (getqueueFuel w f) m am h0 (d + 1) P C := rfl
      rw [hunf]
      exact getqueueStep_printer_local w (getqueueFuel w f) m am h0 (d + 1) P C hclm hippm
    obtain ⟨ih1, ih2⟩ := ih (fun m2 hm2 => hms m2 (List.mem_cons_of_mem m hm2))
    simp only [List.map_cons, hpm, hleaf, seqResults_cons_none]
    refine ⟨ih1, ?_⟩
    rw [nodesOf_append]
    simp [ih2]

/-- A string whose first character is not a space does not start with a
space. -/
theorem pyStarts_space_false_of_head (s : String) (c : Char)
    (hc : s.data.head? = some c) (hne : (' ' == c) = false) :
    pyStarts s " " = false := by
  show listStarts [' '] s.data = false
  cases hs : s.data with
  | nil => rw [hs] at hc; simp at hc
  | cons c2 cs =>
    rw [hs] at hc
    simp only [List.head?_cons, Option.some_inj] at hc
    subst hc
    simp [listStarts, hne]

/-- Every line printed for an event at depth d is the depth-d indent
followed by a body that does not start with a space. -/
theorem render_line_indent (ev : Ev) (d : Nat) (l : String)
    (hd : evDepth ev = some d) (hl : l ∈ render ev) :
    ∃ b, l = do_indent d ++ b ∧ pyStarts b " " = false := by
  cases ev with
  | node d0 h n c =>
    have hd0 : d0 = d := by simpa [evDepth] using hd
    subst hd0
    have hl2 : l = do_indent d0 ++ "* Name:\t" ++ n ++ "[@" ++ h ++ "]"
        ++ (if c then " (class)" else "") := by
      simpa [render] using hl
    subst hl2
    refine ⟨"* Name:\t" ++ n ++ "[@" ++ h ++ "]" ++ (if c then " (class)" else ""),
      ?_, ?_⟩
    · apply String.ext
      simp [String.data_append]
    · exact pyStarts_space_false_of_head _ '*' rfl (by decide)
  | uri d0 dev =>
    have hd0 : d0 = d := by simpa [evDepth] using hd
    subst hd0
    have hl2 : l = do_indent d0 ++ "URI:\t" ++ dev := by
      simpa [render] using hl
    subst hl2
    refine ⟨"URI:\t" ++ dev, ?_, ?_⟩
    · apply String.ext
      simp [String.data_append]
    · exact pyStarts_space_false_of_head _ 'U' rfl (by decide)
  | info d0 inf =>
    have hd0 : d0 = d := by simpa [evDepth] using hd
    subst hd0
    have hl2 : l = do_indent d0 ++ "Info:\t" ++ inf := by
      simpa [render] using hl
    subst hl2
    refine ⟨"Info:\t" ++ inf, ?_, ?_⟩
    · apply String.ext
      simp [String.data_append]
    · exact pyStarts_space_false_of_head _ 'I' rfl (by decide)
  | connect hh => simp [render] at hl
  | fetchAttrs hh nn => simp [render] at hl

/-- C1: for a remote-follow attempt on a device uri, a connection failure
to the parsed remote host and an operation-not-supported IPPError reply
from it are treated identically: in both cases getippqueue returns the
bare connection-attempt trace with no crash, so the branch emits no node,
performs no attribute fetch and no recursion, and the already printed
queue degrades to a leaf. -/
theorem C1_connect_fail_and_unsupported_identical
    (w : World) (fuel : Nat) (dev : String) (depth : Nat)
    (msg : String) (attrs : String → Option QueueAttrs)
    (h : w.connect (ippHost dev) = .fail ∨
      w.connect (ippHost dev) = .ippErr IPP_OPERATION_NOT_SUPPORTED msg attrs) :
    getippqueue w fuel dev depth = ([Ev.connect (ippHost dev)], none) ∧
    nodesOf (getippqueue w fuel dev depth).1 = [] := by
  have he : getippqueue w fuel dev depth = ([Ev.connect (ippHost dev)], none) := by
    cases h with
    | inl h2 => exact ippStep_fail w (getqueueFuel w fuel) dev depth h2
    | inr h2 => exact ippStep_ippErr w (getqueueFuel w fuel) dev depth _ _ _ h2
  refine ⟨he, ?_⟩
  rw [he]
  rfl

theorem C1_witness :
    (wFail.connect (ippHost "ipp://T:631/printers/P3") = .fail) ∧
    getippqueue wFail 3 "ipp://T:631/printers/P3" 0 =
      ([Ev.connect (ippHost "ipp://T:631/printers/P3")], none) ∧
    getippqueue wOpNotSup 3 "ipp://T:631/printers/P3" 0 =
      ([Ev.connect (ippHost "ipp://T:631/printers/P3")], none) :=
  ⟨rfl,
   (C1_connect_fail_and_unsupported_identical wFail 3 "ipp://T:631/printers/P3" 0
     "not supported" (fun _ => none) (Or.inl rfl)).1,
   (C1_connect_fail_and_unsupported_identical wOpNotSup 3 "ipp://T:631/printers/P3" 0
     "not supported" (fun _ => none) (Or.inr rfl)).1⟩

/-- C2: on a device uri whose remainder after the six scheme characters
holds neither a colon nor a slash, both finds return -1 and the slice
dev[:-1] cuts the final character off, so the parser returns the remainder
without its last character, not the entire remainder the spec describes. -/
theorem C2_no_delimiter_drops_last_char :
    pySliceFrom "ipp://myhost" 6 = "myhost" ∧
    pyFind "myhost" ':' = -1 ∧
    pyFind "myhost" '/' = -1 ∧
    ippHost "ipp://myhost" = "myhos" ∧
    ippHost "ipp://myhost" ≠ "myhost" := by
  refine ⟨rfl, rfl, rfl, rfl, by decide⟩

/-- C3 counterexample: the queue named foo on host S has device uri
ipp://T/printers/bar, whose last path segment differs from the queue name.
Resolving foo fetches remote attributes for bar, never for foo, refuting
the claim that the fetch requests the same queue name being resolved. -/
theorem C3_counterexample :
    Ev.fetchAttrs "T" "bar" ∈ (getqueue wC3 2 "foo" aFoo "S" 0 pFooS []).1 ∧
    Ev.fetchAttrs "T" "foo" ∉ (getqueue wC3 2 "foo" aFoo "S" 0 pFooS []).1 := by
  decide

/-- C3 amended: when the remote connect succeeds, the attribute fetch of
getippqueue requests the last path segment of the device uri (ippName),
on the parsed host; that segment coincides with the resolved queue name
only when the uri happens to end in that name. -/
theorem C3_fetch_uses_uri_segment
    (w : World) (fuel : Nat) (dev : String) (depth : Nat)
    (printers : Printers) (classes : Classes) (attrs : String → Option QueueAttrs)
    (hc : w.connect (ippHost dev) = .ok printers classes attrs) :
    ∃ rest2, (getippqueue w fuel dev depth).1 =
      Ev.connect (ippHost dev) :: Ev.fetchAttrs (ippHost dev) (ippName dev) :: rest2 := by
  have hunf : getippqueue w fuel dev depth =
      ippStep w (getqueueFuel w fuel) dev depth := rfl
  cases hat : attrs (ippName dev) with
  | none =>
    refine ⟨[], ?_⟩
    rw [hunf, ippStep_ok_attrs_none w (getqueueFuel w fuel) dev depth
      printers classes attrs hc hat]
  | some q =>
    refine ⟨(getqueueFuel w fuel (ippName dev) q (ippHost dev) (depth + 1)
      printers classes).1, ?_⟩
    rw [hunf, ippStep_ok_attrs_some w (getqueueFuel w fuel) dev depth
      printers classes attrs q hc hat]

theorem C3_witness :
    (wC3.connect (ippHost "ipp://T/printers/bar") =
      .ok pBarT [] (fun n2 => dictGet pBarT n2)) ∧
    ∃ rest2, (getippqueue wC3 1 "ipp://T/printers/bar" 0).1 =
      Ev.connect (ippHost "ipp://T/printers/bar") ::
        Ev.fetchAttrs (ippHost "ipp://T/printers/bar")
          (ippName "ipp://T/printers/bar") :: rest2 :=
  ⟨rfl,
   C3_fetch_uses_uri_segment wC3 1 "ipp://T/printers/bar" 0 pBarT []
     (fun n2 => dictGet pBarT n2) rfl⟩

/-- C4 counterexample: member M of class C1 is listed in the classes table
(with its own entry there) but not in the printers table; resolving C1
raises an uncaught KeyError on M instead of resolving it through the class
table, refuting the claim that resolution succeeds for every member listed
in either table. -/
theorem C4_counterexample :
    dictGet cC4 "M" = some [] ∧
    dictGet pC4 "M" = none ∧
    getqueue wC4 3 "C1" aC4 "S" 0 pC4 cC4 =
      ([Ev.node 0 "S" "C1" true], some (Crash.keyError "M")) := by
  decide

/-- C4 amended: member attributes are looked up in the printers table
only.  A head member present there is resolved with those printer-table
attributes; a head member absent from it raises a KeyError that aborts the
traversal, whatever the classes table says about that member. -/
theorem C4_members_from_printer_table_only
    (w : World) (f : Nat) (n : String) (a : QueueAttrs)
    (h0 : String) (d : Nat) (P : Printers) (C : Classes)
    (m : String) (rest : List String)
    (hcl : (a.printerType &&& CUPS_PRINTER_CLASS != 0) = true)
    (hipp : pyStarts a.deviceUri "ipp:" = false)
    (hmem : dictGet C n = some (m :: rest)) :
    (dictGet P m = none →
      getqueueFuel w (f + 1) n a h0 d P C =
        ([Ev.node d h0 n true], some (Crash.keyError m))) ∧
    (∀ am, dictGet P m = some am →
      ∃ tail2, (getqueueFuel w (f + 1) n a h0 d P C).1 =
        Ev.node d h0 n true :: (getqueueFuel w f m am h0 (d + 1) P C).1 ++ tail2) := by
  have hunf : getqueueFuel w (f + 1) n a h0 d P C =
      getqueueStep w (getqueueFuel w f) n a h0 d P C := rfl
  constructor
  · intro hpm
    rw [hunf, getqueueStep_class_local_mem w (getqueueFuel w f) n a h0 d P C
      (m :: rest) hcl hipp hmem]
    simp [hpm]
  · intro am hpm
    rw [hunf, getqueueStep_class_local_mem w (getqueueFuel w f) n a h0 d P C
      (m :: rest) hcl hipp hmem]
    simp only [List.map_cons, hpm]
    rcases hr : getqueueFuel w f m am h0 (d + 1) P C with ⟨evs, cr⟩
    cases cr with
    | some c =>
      refine ⟨[], ?_⟩
      simp
    | none =>
      refine ⟨(seqResults (rest.map (fun m2 =>
        match dictGet P m2 with
        | none => (([] : List Ev), some (Crash.keyError m2))
        | some a2 => getqueueFuel w f m2 a2 h0 (d + 1) P C))).1, ?_⟩
      simp

theorem C4_witness :
    ((aC4.printerType &&& CUPS_PRINTER_CLASS != 0) = true) ∧
    (pyStarts aC4.deviceUri "ipp:" = false) ∧
    (dictGet cC4 "C1" = some ("M" :: [])) ∧
    ((dictGet pC4 "M" = none →
      getqueueFuel wC4 (1 + 1) "C1" aC4 "S" 0 pC4 cC4 =
        ([Ev.node 0 "S" "C1" true], some (Crash.keyError "M"))) ∧
     (∀ am, dictGet pC4 "M" = some am →
      ∃ tail2, (getqueueFuel wC4 (1 + 1) "C1" aC4 "S" 0 pC4 cC4).1 =
        Ev.node 0 "S" "C1" true ::
          (getqueueFuel wC4 1 "M" am "S" (0 + 1) pC4 cC4).1 ++ tail2)) :=
  ⟨by decide, by decide, by decide,
   C4_members_from_printer_table_only wC4 1 "C1" aC4 "S" 0 pC4 cC4 "M" []
     (by decide) (by decide) (by decide)⟩

/-- C5: a connection failure to the starting host is fatal for the whole
gethost call (nothing but the attempt is traced, and the RuntimeError
escapes), while a connection failure to a remote host reached through a
device uri leaves that branch as a crash-free leaf keeping its depth and
gaining no children — for a simple printer node and for a class node
alike — and a crash-free branch leaves the loop over the remaining
sibling queues untouched. -/
theorem C5_start_fatal_remote_leaf
    (w : World) (fuel : Nat) (h0 : String) (depth : Nat)
    (n : String) (a : QueueAttrs) (P : Printers) (C : Classes) (f : Nat)
    (rs1 : List Res) (r : Res) (rs2 : List Res) :
    (w.connect h0 = .fail →
      gethost w fuel (some h0) depth = ([Ev.connect h0], some Crash.runtimeError)) ∧
    ((a.printerType &&& CUPS_PRINTER_CLASS != 0) = false →
      pyStarts a.deviceUri "ipp:" = true →
      w.connect (ippHost a.deviceUri) = .fail →
      getqueueFuel w (f + 1) n a h0 depth P C =
        ([Ev.node depth h0 n false, Ev.uri depth a.deviceUri,
          Ev.info depth a.printerInfo, Ev.connect (ippHost a.deviceUri)], none)) ∧
    ((a.printerType &&& CUPS_PRINTER_CLASS != 0) = true →
      pyStarts a.deviceUri "ipp:" = true →
      w.connect (ippHost a.deviceUri) = .fail →
      getqueueFuel w (f + 1) n a h0 depth P C =
        ([Ev.node depth h0 n true, Ev.connect (ippHost a.deviceUri)], none)) ∧
    ((seqResults rs1).2 = none → r.2 = none →
      seqResults (rs1 ++ r :: rs2) =
        ((seqResults rs1).1 ++ r.1 ++ (seqResults rs2).1, (seqResults rs2).2)) := by
  refine ⟨?_, ?_, ?_, seqResults_append_mid rs1 r rs2⟩
  · intro hcf
    exact gethost_fail w fuel (some h0) depth hcf
  · intro hcl hipp hcT
    have hunf : getqueueFuel w (f + 1) n a h0 depth P C =
        getqueueStep w (getqueueFuel w f) n a h0 depth P C := rfl
    rw [hunf, getqueueStep_printer_ipp w (getqueueFuel w f) n a h0 depth P C hcl hipp,
      ippStep_fail w (getqueueFuel w f) a.deviceUri depth hcT]
    rfl
  · intro hcl hipp hcT
    have hunf : getqueueFuel w (f + 1) n a h0 depth P C =
        getqueueStep w (getqueueFuel w f) n a h0 depth P C := rfl
    rw [hunf, getqueueStep_class_ipp w (getqueueFuel w f) n a h0 depth P C hcl hipp,
      ippStep_fail w (getqueueFuel w f) a.deviceUri depth hcT]

theorem C5_witness :
    (wFail.connect "S" = ConnectResult.fail) ∧
    gethost wFail 2 (some "S") 0 = ([Ev.connect "S"], some Crash.runtimeError) ∧
    getqueueFuel wFail (0 + 1) "P3" aIppP3 "S" 0 [] [] =
      ([Ev.node 0 "S" "P3" false, Ev.uri 0 aIppP3.deviceUri,
        Ev.info 0 aIppP3.printerInfo, Ev.connect (ippHost aIppP3.deviceUri)], none) ∧
    getqueueFuel wFail (0 + 1) "K1" aIppCl "S" 0 [] [] =
      ([Ev.node 0 "S" "K1" true, Ev.connect (ippHost aIppCl.deviceUri)], none) ∧
    seqResults ([] ++ ([Ev.connect "T"], (none : Option Crash)) :: []) =
      ((seqResults []).1 ++ [Ev.connect "T"] ++ (seqResults []).1, (seqResults []).2) :=
  ⟨rfl,
   (C5_start_fatal_remote_leaf wFail 2 "S" 0 "P3" aIppP3 [] [] 0 []
     ([Ev.connect "T"], (none : Option Crash)) []).1 rfl,
   (C5_start_fatal_remote_leaf wFail 2 "S" 0 "P3" aIppP3 [] [] 0 []
     ([Ev.connect "T"], (none : Option Crash)) []).2.1 (by decide) (by decide) rfl,
   (C5_start_fatal_remote_leaf wFail 2 "S" 0 "K1" aIppCl [] [] 0 []
     ([Ev.connect "T"], (none : Option Crash)) []).2.2.1 (by decide) (by decide) rfl,
   (C5_start_fatal_remote_leaf wFail 2 "S" 0 "P3" aIppP3 [] [] 0 []
     ([Ev.connect "T"], (none : Option Crash)) []).2.2.2 rfl rfl⟩

/-- C6: a class with a local (non-ipp) device uri whose members are all
simple local printers present in the printers table resolves without a
crash and prints exactly the queues named in its member list, in stored
order, each at the class depth plus one. -/
theorem C6_local_class_members
    (w : World) (f : Nat) (n : String) (a : QueueAttrs) (h0 : String) (d : Nat)
    (P : Printers) (C : Classes) (ms : List String)
    (hcl : (a.printerType &&& CUPS_PRINTER_CLASS != 0) = true)
    (hipp : pyStarts a.deviceUri "ipp:" = false)
    (hmem : dictGet C n = some ms)
    (hms : ∀ m ∈ ms, ∃ am, dictGet P m = some am ∧
      (am.printerType &&& CUPS_PRINTER_CLASS != 0) = false ∧
      pyStarts am.deviceUri "ipp:" = false) :
    (getqueueFuel w (f + 2) n a h0 d P C).2 = none ∧
    nodesOf (getqueueFuel w (f + 2) n a h0 d P C).1 =
      (d, h0, n, true) :: ms.map (fun m => (d + 1, h0, m, false)) := by
  have hunf : getqueueFuel w (f + 2) n a h0 d P C =
      getqueueStep w (getqueueFuel w (f + 1)) n a h0 d P C := rfl
  rw [hunf, getqueueStep_class_local_mem w (getqueueFuel w (f + 1)) n a h0 d P C
    ms hcl hipp hmem]
  obtain ⟨h1, h2⟩ := loop_simple_local w f h0 d P C ms hms
  exact ⟨h1, by simp [h2]⟩

theorem C6_witness :
    ((aCl.printerType &&& CUPS_PRINTER_CLASS != 0) = true) ∧
    (pyStarts aCl.deviceUri "ipp:" = false) ∧
    (dictGet cCls "C1" = some ["P1", "P2"]) ∧
    ((getqueueFuel wClass (1 + 2) "C1" aCl "S" 0 pCls cCls).2 = none ∧
      nodesOf (getqueueFuel wClass (1 + 2) "C1" aCl "S" 0 pCls cCls).1 =
        (0, "S", "C1", true) :: ["P1", "P2"].map (fun m => (0 + 1, "S", m, false))) :=
  ⟨by decide, by decide, by decide,
   C6_local_class_members wClass 1 "C1" aCl "S" 0 pCls cCls ["P1", "P2"]
     (by decide) (by decide) (by decide)
     (by
       intro m hm
       rcases List.mem_cons.mp hm with h | h
       · subst h; exact ⟨aP1, by decide, by decide, by decide⟩
       · rcases List.mem_cons.mp h with h2 | h2
         · subst h2; exact ⟨aP2, by decide, by decide, by decide⟩
         · simp at h2)⟩

/-- C7: a simple printer with a non-ipp device uri prints exactly its
node, URI and Info lines and returns: the trace holds no connection
attempt and no attribute fetch, so no recursion and no remote contact
happens, and exactly one leaf node is emitted. -/
theorem C7_simple_local_leaf
    (w : World) (f : Nat) (n : String) (a : QueueAttrs) (h0 : String) (d : Nat)
    (P : Printers) (C : Classes)
    (hcl : (a.printerType &&& CUPS_PRINTER_CLASS != 0) = false)
    (hipp : pyStarts a.deviceUri "ipp:" = false) :
    getqueueFuel w (f + 1) n a h0 d P C =
      ([Ev.node d h0 n false, Ev.uri d a.deviceUri, Ev.info d a.printerInfo], none) ∧
    nodesOf (getqueueFuel w (f + 1) n a h0 d P C).1 = [(d, h0, n, false)] ∧
    (∀ hh, Ev.connect hh ∉ (getqueueFuel w (f + 1) n a h0 d P C).1) ∧
    (∀ hh nn, Ev.fetchAttrs hh nn ∉ (getqueueFuel w (f + 1) n a h0 d P C).1) := by
  have he : getqueueFuel w (f + 1) n a h0 d P C =
      ([Ev.node d h0 n false, Ev.uri d a.deviceUri, Ev.info d a.printerInfo], none) := by
    have hunf : getqueueFuel w (f + 1) n a h0 d P C =
        getqueueStep w (getqueueFuel w f) n a h0 d P C := rfl
    rw [hunf]
    exact getqueueStep_printer_local w (getqueueFuel w f) n a h0 d P C hcl hipp
  refine ⟨he, by rw [he]; rfl, ?_, ?_⟩
  · intro hh
    rw [he]
    simp
  · intro hh nn
    rw [he]
    simp

theorem C7_witness :
    ((aUsb.printerType &&& CUPS_PRINTER_CLASS != 0) = false) ∧
    (pyStarts aUsb.deviceUri "ipp:" = false) ∧
    (getqueueFuel wFail (2 + 1) "EPSON-Stylus-D78" aUsb "localhost" 0 [] [] =
      ([Ev.node 0 "localhost" "EPSON-Stylus-D78" false, Ev.uri 0 aUsb.deviceUri,
        Ev.info 0 aUsb.printerInfo], none) ∧
     nodesOf (getqueueFuel wFail (2 + 1) "EPSON-Stylus-D78" aUsb "localhost" 0 [] []).1 =
       [(0, "localhost", "EPSON-Stylus-D78", false)] ∧
     (∀ hh, Ev.connect hh ∉
       (getqueueFuel wFail (2 + 1) "EPSON-Stylus-D78" aUsb "localhost" 0 [] []).1) ∧
     (∀ hh nn, Ev.fetchAttrs hh nn ∉
       (getqueueFuel wFail (2 + 1) "EPSON-Stylus-D78" aUsb "localhost" 0 [] []).1)) :=
  ⟨by decide, by decide,
   C7_simple_local_leaf wFail 2 "EPSON-Stylus-D78" aUsb "localhost" 0 [] []
     (by decide) (by decide)⟩

/-- C8: whenever the topology tree (forest) of a run exists, the run is
crash free and the sequence of printed nodes is exactly its pre-order
linearisation: every node comes before all of its descendants, the
children of a class follow the member-list order, and the top-level queues
follow the printers-table iteration order, with no re-sorting. -/
theorem C8_preorder (w : World) (fuel : Nat) :
    (∀ n a h0 d P C t, buildTree w fuel n a h0 d P C = some t →
      (getqueueFuel w fuel n a h0 d P C).2 = none ∧
      nodesOf (getqueueFuel w fuel n a h0 d P C).1 = preOrder t) ∧
    (∀ hostArg depth ts, buildHost w fuel hostArg depth = some ts →
      (gethost w fuel hostArg depth).2 = none ∧
      nodesOf (gethost w fuel hostArg depth).1 = preOrderF ts) :=
  ⟨refine_main w fuel,
   fun hostArg depth ts hts => host_refine w fuel hostArg depth ts hts⟩

theorem C8_witness :
    buildHost wClass 3 (some "S") 0 = some forestCls ∧
    ((gethost wClass 3 (some "S") 0).2 = none ∧
      nodesOf (gethost wClass 3 (some "S") 0).1 = preOrderF forestCls) :=
  ⟨rfl, (C8_preorder wClass 3).2 (some "S") 0 forestCls rfl⟩

/-- C9: for every run whose topology forest exists, the printed nodes are
the pre-order of that forest and every node of the forest stores the
number of class-expansion and remote-follow steps from its top-level
queue (starting depth 0); moreover every text line rendered for an event
at depth d is the depth-d indent followed by a non-indented body, and the
indent is exactly two space characters per depth level. -/
theorem C9_depth_and_indent (w : World) (fuel : Nat) :
    (∀ hostArg ts, buildHost w fuel hostArg 0 = some ts →
      nodesOf (gethost w fuel hostArg 0).1 = preOrderF ts ∧
      depthsFromFB 0 ts = true) ∧
    (∀ ev d l, evDepth ev = some d → l ∈ render ev →
      ∃ b, l = do_indent d ++ b ∧ pyStarts b " " = false) ∧
    (∀ d, (do_indent d).data = List.replicate (2 * d) ' ') := by
  refine ⟨?_, render_line_indent, do_indent_data⟩
  intro hostArg ts hts
  exact ⟨(host_refine w fuel hostArg 0 ts hts).2, host_depth w fuel hostArg 0 ts hts⟩

theorem C9_witness :
    buildHost wClass 3 (some "S") 0 = some forestCls ∧
    (nodesOf (gethost wClass 3 (some "S") 0).1 = preOrderF forestCls ∧
      depthsFromFB 0 forestCls = true) ∧
    (evDepth (Ev.node 2 "S" "x" false) = some 2 ∧
      "    * Name:\tx[@S]" ∈ render (Ev.node 2 "S" "x" false)) ∧
    (∃ b, "    * Name:\tx[@S]" = do_indent 2 ++ b ∧ pyStarts b " " = false) :=
  ⟨rfl,
   (C9_depth_and_indent wClass 3).1 (some "S") forestCls rfl,
   ⟨rfl, by decide⟩,
   (C9_depth_and_indent wClass 3).2.1 (Ev.node 2 "S" "x" false) 2
     "    * Name:\tx[@S]" rfl (by decide)⟩

/-- C10: the host parser yields host.example.com for the documented uri
with a port and for the one without a port, and the usb uri does not carry
the ipp scheme, so a queue bearing it is fully local: resolving a simple
printer with that uri emits only its own three lines and performs no
remote follow. -/
theorem C10_parser_documented_inputs :
    ippHost "ipp://host.example.com:631/printers/foo" = "host.example.com" ∧
    ippHost "ipp://host.example.com/printers/foo" = "host.example.com" ∧
    pyStarts "usb://EPSON/Stylus%20D78" "ipp:" = false ∧
    (∀ w f n d P C,
      getqueueFuel w (f + 1) n aUsb "localhost" d P C =
        ([Ev.node d "localhost" n false, Ev.uri d aUsb.deviceUri,
          Ev.info d aUsb.printerInfo], none)) := by
  refine ⟨by decide, by decide, by decide, ?_⟩
  intro w f n d P C
  have hunf : getqueueFuel w (f + 1) n aUsb "localhost" d P C =
      getqueueStep w (getqueueFuel w f) n aUsb "localhost" d P C := rfl
  rw [hunf]
  exact getqueueStep_printer_local w (getqueueFuel w f) n aUsb "localhost" d P C
    (by decide) (by decide)

end CupsTree
